import Mathlib

/-!
Verification of the GeoH2-data-prep repository's data-preparation logic.

The repository is a set of Python scripts preparing geospatial data for a
renewable-energy siting pipeline.  This file gives a shallow embedding of the
repository's own logic (UTM EPSG zone selection, country-name normalization,
recursive config templating, hexagon deduplication, the hexagon write/skip
branching, the spatial-join point counting, and the order of calls issued to
the external exclusion engine) and proves or refutes the specification's
claims about it.

Machine-level conventions: Python's `round(x, 0)` rounds half to even
(banker's rounding); strings are modelled as `List Char`; the third-party
`unidecode` transliterator is modelled as a character table that is the
identity on ASCII and maps every other character to some ASCII string, which
is exactly the shape of the real library's data tables.
-/

/-! ## UTM EPSG zone selection

Both `spatial_data_prep.py` (line 59) and `prep_before_spider.py` (line 219)
compute, from a representative point's latitude and longitude:

  `EPSG = int(32700 - round((45 + latitude) / 90, 0) * 100 + round((183 + longitude) / 6, 0))`

with Python's `round`, which rounds half to even.  There is no input
validation anywhere around the formula.
-/

/-- Python's `round(q, 0)` on a rational value: round to the nearest integer,
ties going to the even integer (banker's rounding). -/
def pyRound (q : ℚ) : ℤ :=
  if q - (⌊q⌋ : ℚ) < 1 / 2 then ⌊q⌋
  else if (1 : ℚ) / 2 < q - (⌊q⌋ : ℚ) then ⌊q⌋ + 1
  else if 2 ∣ ⌊q⌋ then ⌊q⌋ else ⌊q⌋ + 1

/-- The EPSG selection formula from `spatial_data_prep.py` line 59 and
`prep_before_spider.py` line 219 (the two occurrences are textually
identical). -/
def EPSG_formula (latitude longitude : ℚ) : ℤ :=
  32700 - pyRound ((45 + latitude) / 90) * 100 + pyRound ((183 + longitude) / 6)

/-- An integer is a meaningful UTM EPSG code when it encodes a zone number
between 1 and 60 in either the northern (326xx) or southern (327xx) series. -/
def validUTMcode (e : ℤ) : Bool :=
  (32601 ≤ e && e ≤ 32660) || (32701 ≤ e && e ≤ 32760)

/-! ## Country-name normalization

`make_spider_configs.py` lines 47-50 and `combine_glaes_spider.py` lines 34-37
normalize a country name by `unidecode(country_name)` followed by
`.replace(" ", "")`, `.replace(".", "")`, `.replace("'", "")`.

The third-party `unidecode` function maps every ASCII character to itself and
every other character to a table-driven ASCII string (possibly empty).  We
model it by a character table constrained to produce ASCII output. -/

/-- The `unidecode` transliterator: ASCII characters pass through unchanged,
any other character is expanded by the library's table. -/
def unidecodeStr (table : Char → List Char) (s : List Char) : List Char :=
  (s.map (fun c => if c.toNat < 128 then [c] else table c)).flatten

/-- The defining property of the real `unidecode` tables: every expansion
consists of ASCII characters only. -/
def asciiTable (table : Char → List Char) : Prop :=
  ∀ c d, d ∈ table c → d.toNat < 128

/-- Python's `s.replace(c, "")` for a single character `c`: delete every
occurrence. -/
def removeAllChar (s : List Char) (c : Char) : List Char :=
  s.filter (fun d => !(d == c))

/-- The apostrophe character stripped by the normalizer. -/
def apostropheChar : Char := Char.ofNat 39

/-- Country-name normalization from `make_spider_configs.py` lines 47-50 /
`combine_glaes_spider.py` lines 34-37: transliterate, then delete spaces,
periods, and apostrophes in that order. -/
def country_name_clean (table : Char → List Char) (s : List Char) : List Char :=
  removeAllChar (removeAllChar (removeAllChar (unidecodeStr table s) ' ') '.') apostropheChar

/-! ## Config templating

`prep_before_spider.py` lines 111-118 and `make_spider_configs.py` lines 33-41
define `replace_country`, which recursively rebuilds a YAML document: dicts
are rebuilt with untouched keys and recursed values, lists are rebuilt with
recursed items, string leaves become `unidecode(node).replace("Country",
country_name)`, and everything else is returned as is.  A YAML document is a
tree of mappings, sequences, strings, and other scalars (the scalar payload
type is a parameter `α`). -/

mutual
inductive Node (α : Type) where
  | str : List Char → Node α
  | scalar : α → Node α
  | dict : NodeDict α → Node α
  | seq : NodeSeq α → Node α
inductive NodeDict (α : Type) where
  | nil : NodeDict α
  | cons : List Char → Node α → NodeDict α → NodeDict α
inductive NodeSeq (α : Type) where
  | nil : NodeSeq α
  | cons : Node α → NodeSeq α → NodeSeq α
end

/-- The placeholder token `"Country"` that the templating step substitutes. -/
def countryToken : List Char := ['C', 'o', 'u', 'n', 't', 'r', 'y']

/-- Python's `s.replace("Country", rep)`: scan left to right; at each position
where the next seven characters are exactly `Country`, emit `rep` and resume
after them, otherwise keep one character and continue. -/
def replaceToken : List Char → List Char → List Char
  | [], _ => []
  | 'C' :: 'o' :: 'u' :: 'n' :: 't' :: 'r' :: 'y' :: rest, rep =>
      rep ++ replaceToken rest rep
  | c :: rest, rep => c :: replaceToken rest rep

/-- Whether `Country` occurs as a contiguous substring. -/
def containsToken : List Char → Bool
  | [] => false
  | 'C' :: 'o' :: 'u' :: 'n' :: 't' :: 'r' :: 'y' :: _ => true
  | _ :: rest => containsToken rest

mutual
/-- `replace_country` from `prep_before_spider.py` lines 111-118 (the copy in
`make_spider_configs.py` lines 33-41 is identical): rebuild the tree, leaving
dict keys and non-string scalars unchanged and transliterating-then-replacing
string leaves.  The input tree is not modified (the Python code builds fresh
dicts, lists, and strings). -/
def replace_country (table : Char → List Char) (node : Node α) (country : List Char) :
    Node α :=
  match node with
  | .str s => .str (replaceToken (unidecodeStr table s) country)
  | .scalar a => .scalar a
  | .dict kvs => .dict (replace_country_dict table kvs country)
  | .seq items => .seq (replace_country_seq table items country)
def replace_country_dict (table : Char → List Char) (kvs : NodeDict α)
    (country : List Char) : NodeDict α :=
  match kvs with
  | .nil => .nil
  | .cons k v rest =>
      .cons k (replace_country table v country) (replace_country_dict table rest country)
def replace_country_seq (table : Char → List Char) (items : NodeSeq α)
    (country : List Char) : NodeSeq α :=
  match items with
  | .nil => .nil
  | .cons v rest =>
      .cons (replace_country table v country) (replace_country_seq table rest country)
end

mutual
/-- Modelled from the spec's words (§4.4): a structure-preserving map that
applies `f` to every string-valued leaf and passes every non-string,
non-container leaf through unchanged, visiting every leaf through arbitrary
nesting of mappings and sequences. -/
def mapStringLeaves (f : List Char → List Char) (node : Node α) : Node α :=
  match node with
  | .str s => .str (f s)
  | .scalar a => .scalar a
  | .dict kvs => .dict (mapStringLeavesDict f kvs)
  | .seq items => .seq (mapStringLeavesSeq f items)
def mapStringLeavesDict (f : List Char → List Char) (kvs : NodeDict α) : NodeDict α :=
  match kvs with
  | .nil => .nil
  | .cons k v rest => .cons k (mapStringLeaves f v) (mapStringLeavesDict f rest)
def mapStringLeavesSeq (f : List Char → List Char) (items : NodeSeq α) : NodeSeq α :=
  match items with
  | .nil => .nil
  | .cons v rest => .cons (mapStringLeaves f v) (mapStringLeavesSeq f rest)
end

/-! ## Hexagon records, deduplication, and persistence

`prep_after_spider.py` lines 94-120 (`remove_extra_hexagons`) loads a GeoJSON
dict, copies its feature list, and for each copied feature whose
`properties['country']` differs from the target calls `list.remove`, which
deletes the first element of the live list equal to the feature.  Lines
122-135 (`update_hexagons`) write a dict argument unconditionally, write a
GeoDataFrame argument only when it is non-empty, and otherwise print a
diagnostic and skip the write.  Lines 176-197 of `__main__` chain these steps
and re-read each written file.

A hexagon feature is modelled by its physical identity (`hexId`, standing for
the geometry), its country tag, the two technology counts, and the remaining
properties. -/

structure Feature where
  hexId : Nat
  country : List Char
  theo_turbines : Nat
  theo_pv : Nat
  otherProps : List (List Char × Int)
deriving DecidableEq

structure HexJson where
  features : List Feature
deriving DecidableEq

/-- Python's `list.remove(x)`: delete the first element equal to `x` (during
the deduplication loop an equal element is always present, so the
`ValueError` branch of `list.remove` is unreachable and a total model is
adequate). -/
def removeFirst {β : Type} [DecidableEq β] : List β → β → List β
  | [], _ => []
  | y :: ys, x => if y = x then ys else y :: removeFirst ys x

/-- The `for feature in copied_list` loop of `remove_extra_hexagons`
(`prep_after_spider.py` lines 116-118): `current` is the live feature list,
`pending` the up-front copy being iterated. -/
def removalLoop (target : List Char) : List Feature → List Feature → List Feature
  | current, [] => current
  | current, f :: rest =>
      removalLoop target (if f.country = target then current else removeFirst current f) rest

/-- `remove_extra_hexagons` from `prep_after_spider.py` lines 94-120, on the
already-loaded document. -/
def remove_extra_hexagons (hexagons : HexJson) (target : List Char) : HexJson :=
  ⟨removalLoop target hexagons.features hexagons.features⟩

/-- The filtering predicate of the deduplication step: the feature's country
tag equals the target identifier. -/
def keepFeature (target : List Char) (f : Feature) : Bool :=
  decide (f.country = target)

/-- The two shapes `update_hexagons` distinguishes: a plain GeoJSON dict
(`json.load` output) or a GeoDataFrame. -/
inductive HexData where
  | dict : HexJson → HexData
  | gdf : List Feature → HexData
deriving DecidableEq

/-- Outcome of one `update_hexagons` call: the document written to the target
path (none when the write was skipped) and whether the empty-GeoDataFrame
diagnostic was printed. -/
structure UpdateResult where
  written : Option HexData
  diagnostic : Bool
deriving DecidableEq

/-- `update_hexagons` from `prep_after_spider.py` lines 122-135: a dict is
dumped unconditionally; a non-empty GeoDataFrame is written; an empty
GeoDataFrame prints the diagnostic and skips the write. -/
def update_hexagons : HexData → UpdateResult
  | .dict d => ⟨some (.dict d), false⟩
  | .gdf rows => if rows.isEmpty then ⟨none, true⟩ else ⟨some (.gdf rows), false⟩

/-- The error raised by `gpd.read_file` / `open` on a missing path. -/
inductive PipeError where
  | fileNotFound
deriving DecidableEq

/-- `gpd.read_file` (or `open` + `json.load`) on the content at a path:
a missing file raises. -/
def read_file (contents : Option HexData) : Except PipeError (List Feature) :=
  match contents with
  | some (.dict d) => .ok d.features
  | some (.gdf rows) => .ok rows
  | none => .error .fileNotFound

/-- The per-country tail of `__main__` in `prep_after_spider.py` (lines
176-197), starting at the `update_hexagons(hex, save_path)` call that follows
`combine_glaes_spider`: save the combined hexagons, re-read the save path,
tag countries (`assign_country`, an external world-dataset spatial join,
passed in as a parameter), save to the output path, re-read it for
`remove_extra_hexagons`, and save the deduplicated dict.  `preSave` and
`preOut` are the files already present at the two paths before the run. -/
def pipeline_after_combine (assignCountry : List Feature → List Feature)
    (target : List Char) (hex : List Feature) (preSave preOut : Option HexData) :
    Except PipeError (Option HexData) := do
  let r1 := update_hexagons (.gdf hex)
  let saveFile := match r1.written with
    | some d => some d
    | none => preSave
  let hexagons ← read_file saveFile
  let tagged := assignCountry hexagons
  let r2 := update_hexagons (.gdf tagged)
  let outFile := match r2.written with
    | some d => some d
    | none => preOut
  let loaded ← read_file outFile
  let final := remove_extra_hexagons ⟨loaded⟩ target
  let r3 := update_hexagons (.dict final)
  pure r3.written

/-! ## The exclusion-and-placement call sequence

`calculating_exclusions` (`prep_before_spider.py` lines 44-91) and the loop
body of `Inputs_Glaes/workflow.py` (lines 52-106) drive the external GLAES
engine.  The engine is opaque; what the repository owns is the sequence of
calls issued to it, which we record as a trace.  The sequence is the same for
every country; only the country name inside the file paths varies. -/

inductive Tech where
  | wind
  | pv
deriving DecidableEq

/-- One call into the external GLAES exclusion engine. -/
inductive EngineCall where
  | initCalc (region : List Char)
  | excludeVectorType (layer : List Char) (buffer : Nat)
  | excludeRasterType (raster : List Char) (value : Nat)
  | save (target : List Char)
  | distributeItems (tech : Tech)
deriving DecidableEq

/-- The calls issued by `calculating_exclusions` in `prep_before_spider.py`
lines 63-91, in source order: initialize, coastal (ocean) buffer, wetland
(class 90), built-up (class 50), water bodies (class 80), save the wind
raster, place turbines, agriculture (class 40), save the PV raster, place PV.
No protected-area layer is excluded in this function. -/
def calculating_exclusions_calls (country : List Char) : List EngineCall :=
  [.initCalc (country ++ (".geojson").data),
   .excludeVectorType (country ++ ("_oceans.geojson").data) 250,
   .excludeRasterType (country ++ ("_CLC.tif").data) 90,
   .excludeRasterType (country ++ ("_CLC.tif").data) 50,
   .excludeRasterType (country ++ ("_CLC.tif").data) 80,
   .save (country ++ ("_wind_exclusions.tif").data),
   .distributeItems .wind,
   .excludeRasterType (country ++ ("_CLC.tif").data) 40,
   .save (country ++ ("_pv_exclusions.tif").data),
   .distributeItems .pv]

/-- The calls issued by the per-country loop body of
`Inputs_Glaes/workflow.py` lines 52-106, in source order; unlike
`calculating_exclusions` it excludes the protected-area layer right after the
coastal buffer. -/
def workflow_calls (country : List Char) : List EngineCall :=
  [.initCalc (country ++ (".geojson").data),
   .excludeVectorType (country ++ ("_oceans.geojson").data) 250,
   .excludeVectorType (country ++ ("_protected_areas.geojson").data) 250,
   .excludeRasterType (country ++ ("_CLC.tif").data) 90,
   .excludeRasterType (country ++ ("_CLC.tif").data) 50,
   .excludeRasterType (country ++ ("_CLC.tif").data) 80,
   .save (country ++ ("_wind_exclusions.tif").data),
   .distributeItems .wind,
   .excludeRasterType (country ++ ("_CLC.tif").data) 40,
   .save (country ++ ("_pv_exclusions.tif").data),
   .distributeItems .pv]

/-- The exclusion and placement calls, with initialization and raster saves
(which change no exclusion state) filtered out. -/
def isExclusionOrPlacement : EngineCall → Bool
  | .initCalc _ => false
  | .save _ => false
  | _ => true

/-- The order the claim asserts for the exclusion and placement calls:
coastal buffer, protected areas, wetland, built-up, water bodies, turbine
placement, agriculture, PV placement. -/
def claimedCallOrder (country : List Char) : List EngineCall :=
  [.excludeVectorType (country ++ ("_oceans.geojson").data) 250,
   .excludeVectorType (country ++ ("_protected_areas.geojson").data) 250,
   .excludeRasterType (country ++ ("_CLC.tif").data) 90,
   .excludeRasterType (country ++ ("_CLC.tif").data) 50,
   .excludeRasterType (country ++ ("_CLC.tif").data) 80,
   .distributeItems .wind,
   .excludeRasterType (country ++ ("_CLC.tif").data) 40,
   .distributeItems .pv]

/-! ## GLAES/SPIDER combination: spatial join and point counting

`combine_glaes_spider` (`prep_after_spider.py` lines 30-58, and the inline
copy in `combine_glaes_spider.py` lines 52-76) left-joins the placement
points to the hexagon polygons with a strict `within` predicate, groups the
join rows by hexagon index, takes each group's size as the hexagon's count,
and fills hexagons with no group with 0.

Geometry is delegated to the external library, so the containment test is a
parameter `w : P → H → Bool`.  Hexagons are identified by their position;
a join row pairs a point with the index of a hexagon containing it. -/

/-- Containment against the hexagon at position `i` (false when `i` is out of
range, matching a join row that simply cannot arise). -/
def withinAt {P H : Type} (w : P → H → Bool) (hexes : List H) (p : P) (i : Nat) : Bool :=
  (hexes[i]?.map (w p)).getD false

/-- The rows of `gpd.sjoin(points, hex, how='left', predicate='within')` that
carry a hexagon index: one row per (point, containing hexagon) pair.  Rows
for points inside no hexagon have a null index and are ignored by the
subsequent `groupby`, so they are omitted here. -/
def sjoin_rows {P H : Type} (w : P → H → Bool) (pts : List P) (hexes : List H) :
    List (P × Nat) :=
  (pts.map (fun p =>
    ((List.range hexes.length).filter (withinAt w hexes p)).map (fun i => (p, i)))).flatten

/-- `spatial_join.groupby('index').size()` for hexagon index `i`, with the
`fillna(0)` default: the number of join rows carrying index `i`. -/
def group_size {P : Type} (rows : List (P × Nat)) (i : Nat) : Nat :=
  (rows.filter (fun r => decide (r.2 = i))).length

/-- `combine_glaes_spider` (`prep_after_spider.py` lines 30-58): attach to
each hexagon the count of wind points and of PV points that lie within it. -/
def combine_glaes_spider {P H : Type} (w : P → H → Bool) (wind pv : List P)
    (hexes : List H) : List (H × Nat × Nat) :=
  hexes.enum.map (fun e =>
    (e.2, group_size (sjoin_rows w wind hexes) e.1, group_size (sjoin_rows w pv hexes) e.1))

example : pyRound (11 / 18) = 1 := by norm_num [pyRound]
example : pyRound (1 / 2) = 0 := by norm_num [pyRound]
example : pyRound (3 / 2) = 2 := by norm_num [pyRound]

theorem unidecodeStr_cons (table : Char → List Char) (c : Char) (rest : List Char) :
    unidecodeStr table (c :: rest)
      = (if c.toNat < 128 then [c] else table c) ++ unidecodeStr table rest := by
  simp [unidecodeStr]

theorem unidecodeStr_ascii_fix (table : Char → List Char) (s : List Char)
    (h : ∀ c ∈ s, c.toNat < 128) : unidecodeStr table s = s := by
  induction s with
  | nil => rfl
  | cons c rest ih =>
    rw [unidecodeStr_cons, if_pos (h c (List.mem_cons_self c rest)),
      ih (fun d hd => h d (List.mem_cons_of_mem c hd))]
    rfl

theorem mem_unidecodeStr_ascii (table : Char → List Char) (h : asciiTable table)
    (s : List Char) : ∀ d ∈ unidecodeStr table s, d.toNat < 128 := by
  induction s with
  | nil => simp [unidecodeStr]
  | cons c rest ih =>
    intro d hd
    rw [unidecodeStr_cons] at hd
    rcases List.mem_append.mp hd with h1 | h2
    · by_cases hc : c.toNat < 128
      · rw [if_pos hc] at h1
        simpa [List.mem_singleton.mp h1] using hc
      · rw [if_neg hc] at h1
        exact h c d h1
    · exact ih d h2

theorem mem_removeAllChar {s : List Char} {c d : Char} :
    d ∈ removeAllChar s c ↔ d ∈ s ∧ d ≠ c := by
  simp [removeAllChar, List.mem_filter]

theorem removeAllChar_eq_self {s : List Char} {c : Char} (h : ∀ d ∈ s, d ≠ c) :
    removeAllChar s c = s :=
  List.filter_eq_self.mpr (fun d hd => by simpa using h d hd)

example : replaceToken ('C' :: (countryToken ++ ['o', 'u', 'n', 't', 'r', 'y'])) [] =
    countryToken := by decide
example : containsToken countryToken = true := by decide
example : containsToken [] = false := by decide
example : replaceToken countryToken ['X'] = ['X'] := by decide

mutual
theorem replace_country_eq_aux (table : Char → List Char) (country : List Char) :
    ∀ n : Node α, replace_country table n country
      = mapStringLeaves (fun s => replaceToken (unidecodeStr table s) country) n
  | .str _ => rfl
  | .scalar _ => rfl
  | .dict kvs => congrArg Node.dict (replace_country_dict_eq_aux table country kvs)
  | .seq items => congrArg Node.seq (replace_country_seq_eq_aux table country items)
theorem replace_country_dict_eq_aux (table : Char → List Char) (country : List Char) :
    ∀ kvs : NodeDict α, replace_country_dict table kvs country
      = mapStringLeavesDict (fun s => replaceToken (unidecodeStr table s) country) kvs
  | .nil => rfl
  | .cons k v rest => by
      show NodeDict.cons k (replace_country table v country)
          (replace_country_dict table rest country) = _
      rw [replace_country_eq_aux table country v, replace_country_dict_eq_aux table country rest]
      rfl
theorem replace_country_seq_eq_aux (table : Char → List Char) (country : List Char) :
    ∀ items : NodeSeq α, replace_country_seq table items country
      = mapStringLeavesSeq (fun s => replaceToken (unidecodeStr table s) country) items
  | .nil => rfl
  | .cons v rest => by
      show NodeSeq.cons (replace_country table v country)
          (replace_country_seq table rest country) = _
      rw [replace_country_eq_aux table country v, replace_country_seq_eq_aux table country rest]
      rfl
end

theorem removalLoop_eq_foldl (target : List Char) (pending : List Feature) :
    ∀ current : List Feature,
      removalLoop target current pending
        = (pending.filter (fun f => !keepFeature target f)).foldl removeFirst current := by
  induction pending with
  | nil => intro current; rfl
  | cons f rest ih =>
    intro current
    rw [show removalLoop target current (f :: rest)
        = removalLoop target (if f.country = target then current else removeFirst current f)
          rest from rfl]
    by_cases h : f.country = target
    · rw [if_pos h, List.filter_cons_of_neg (by simp [keepFeature, h])]
      exact ih current
    · rw [if_neg h, List.filter_cons_of_pos (by simp [keepFeature, h]), List.foldl_cons]
      exact ih (removeFirst current f)

theorem foldl_removeFirst_cons {β : Type} [DecidableEq β] (x : β) (ys : List β)
    (h : ∀ y ∈ ys, y ≠ x) :
    ∀ xs : List β, ys.foldl removeFirst (x :: xs) = x :: ys.foldl removeFirst xs := by
  induction ys with
  | nil => intro xs; rfl
  | cons y ys ih =>
    intro xs
    have hx : removeFirst (x :: xs) y = x :: removeFirst xs y := by
      rw [show removeFirst (x :: xs) y = if x = y then xs else x :: removeFirst xs y from rfl,
        if_neg (Ne.symm (h y (List.mem_cons_self y ys)))]
    rw [List.foldl_cons, hx, List.foldl_cons,
      ih (fun z hz => h z (List.mem_cons_of_mem y hz)) (removeFirst xs y)]

theorem foldl_removeFirst_filter (target : List Char) :
    ∀ L : List Feature,
      (L.filter (fun f => !keepFeature target f)).foldl removeFirst L
        = L.filter (keepFeature target) := by
  intro L
  induction L with
  | nil => rfl
  | cons x xs ih =>
    by_cases h : x.country = target
    · have hk : (!keepFeature target x) = false := by simp [keepFeature, h]
      rw [List.filter_cons_of_neg (by simp [hk]), List.filter_cons_of_pos (by simp [keepFeature, h])]
      have hne : ∀ y ∈ xs.filter (fun f => !keepFeature target f), y ≠ x := by
        intro y hy hyx
        have := (List.mem_filter.mp hy).2
        rw [hyx] at this
        simp [keepFeature, h] at this
      rw [foldl_removeFirst_cons x _ hne xs, ih]
    · have hk : (!keepFeature target x) = true := by simp [keepFeature, h]
      rw [List.filter_cons_of_pos (by simp [keepFeature, h]),
        List.filter_cons_of_neg (by simp [keepFeature, h]), List.foldl_cons,
        show removeFirst (x :: xs) x = xs from by
          rw [show removeFirst (x :: xs) x = if x = x then xs else x :: removeFirst xs x from rfl,
            if_pos rfl],
        ih]

theorem withinAt_lt_length {P H : Type} {w : P → H → Bool} {hexes : List H} {p : P}
    {i : Nat} (h : withinAt w hexes p i = true) : i < hexes.length := by
  by_contra hge
  rw [withinAt, List.getElem?_eq_none (Nat.le_of_not_lt hge)] at h
  simp at h

theorem group_size_append {P : Type} (a b : List (P × Nat)) (i : Nat) :
    group_size (a ++ b) i = group_size a i + group_size b i := by
  simp [group_size, List.filter_append]

theorem length_filter_and_eq {l : List Nat} (hnd : l.Nodup) (q : Nat → Bool) (i : Nat) :
    (l.filter (fun j => decide (j = i) && q j)).length
      = if i ∈ l ∧ q i = true then 1 else 0 := by
  induction l with
  | nil => simp
  | cons a l ih =>
    have hnd' := (List.nodup_cons.mp hnd).2
    have hnotmem := (List.nodup_cons.mp hnd).1
    by_cases hai : a = i
    · subst hai
      by_cases hq : q a = true
      · rw [List.filter_cons_of_pos (by simp [hq]), List.length_cons, ih hnd']
        simp [hnotmem, hq]
      · rw [List.filter_cons_of_neg (by simp [hq]), ih hnd']
        simp [hnotmem, hq]
    · rw [List.filter_cons_of_neg (by simp [hai]), ih hnd']
      have hmem : (i ∈ a :: l) ↔ (i ∈ l) := by
        constructor
        · intro hm
          rcases List.mem_cons.mp hm with he | hm2
          · exact absurd he.symm hai
          · exact hm2
        · exact List.mem_cons_of_mem a
      simp only [hmem]

theorem group_size_sjoin_rows {P H : Type} (w : P → H → Bool) (pts : List P)
    (hexes : List H) (i : Nat) :
    group_size (sjoin_rows w pts hexes) i
      = (pts.filter (fun p => withinAt w hexes p i)).length := by
  induction pts with
  | nil => simp [sjoin_rows, group_size]
  | cons p rest ih =>
    rw [show sjoin_rows w (p :: rest) hexes
        = ((List.range hexes.length).filter (withinAt w hexes p)).map (fun j => (p, j))
          ++ sjoin_rows w rest hexes from by simp [sjoin_rows],
      group_size_append, ih]
    have hblock : group_size
        (((List.range hexes.length).filter (withinAt w hexes p)).map (fun j => (p, j))) i
        = if withinAt w hexes p i = true then 1 else 0 := by
      rw [group_size, List.filter_map, List.length_map, List.filter_filter]
      have hpred : ∀ a ∈ List.range hexes.length,
          (((fun r : P × Nat => decide (r.2 = i)) ∘ fun j => (p, j)) a
            && withinAt w hexes p a)
            = (decide (a = i) && withinAt w hexes p a) := by
        intro a _
        rfl
      rw [List.filter_congr hpred,
        length_filter_and_eq (List.nodup_range _) (withinAt w hexes p) i]
      by_cases hw : withinAt w hexes p i = true
      · rw [if_pos hw, if_pos ⟨List.mem_range.mpr (withinAt_lt_length hw), hw⟩]
      · rw [if_neg hw, if_neg (fun hc => hw hc.2)]
    rw [hblock]
    by_cases hw : withinAt w hexes p i = true
    · rw [if_pos hw, List.filter_cons_of_pos (by simp [hw]), List.length_cons]
      omega
    · rw [if_neg hw, List.filter_cons_of_neg (by simp [hw])]
      omega

theorem sum_map_add_nat {γ : Type} (l : List γ) (f g : γ → Nat) :
    (l.map (fun x => f x + g x)).sum = (l.map f).sum + (l.map g).sum := by
  induction l with
  | nil => rfl
  | cons a l ih => simp [ih]; omega

theorem sum_ite_eq_length_filter {γ : Type} (l : List γ) (q : γ → Bool) :
    (l.map (fun x => if q x = true then 1 else 0)).sum = (l.filter q).length := by
  induction l with
  | nil => rfl
  | cons a l ih =>
    by_cases hq : q a = true
    · rw [List.map_cons, if_pos hq, List.sum_cons, ih,
        List.filter_cons_of_pos (by simp [hq]), List.length_cons]
      omega
    · rw [List.map_cons, if_neg hq, List.sum_cons, ih,
        List.filter_cons_of_neg (by simp [hq])]
      omega

theorem sum_counts_swap {P : Type} (pts : List P) (idxs : List Nat) (g : P → Nat → Bool) :
    (idxs.map (fun i => (pts.filter (fun p => g p i)).length)).sum
      = (pts.map (fun p => (idxs.filter (g p)).length)).sum := by
  induction pts with
  | nil => simp
  | cons p rest ih =>
    have hsplit : ∀ i : Nat, ((p :: rest).filter (fun x => g x i)).length
        = (if g p i = true then 1 else 0) + (rest.filter (fun x => g x i)).length := by
      intro i
      by_cases hg : g p i = true
      · rw [List.filter_cons_of_pos (by simp [hg]), if_pos hg, List.length_cons]
        omega
      · rw [List.filter_cons_of_neg (by simp [hg]), if_neg hg]
        omega
    calc (idxs.map (fun i => ((p :: rest).filter (fun x => g x i)).length)).sum
        = (idxs.map (fun i =>
            (if g p i = true then 1 else 0) + (rest.filter (fun x => g x i)).length)).sum := by
          simp only [hsplit]
      _ = (idxs.map (fun i => if g p i = true then 1 else 0)).sum
            + (idxs.map (fun i => (rest.filter (fun x => g x i)).length)).sum :=
          sum_map_add_nat idxs _ _
      _ = (idxs.filter (g p)).length
            + ((rest.map (fun x => (idxs.filter (g x)).length)).sum) := by
          rw [sum_ite_eq_length_filter, ih]
      _ = ((p :: rest).map (fun x => (idxs.filter (g x)).length)).sum := by
          rw [List.map_cons, List.sum_cons]

theorem length_filter_withinAt {P H : Type} (w : P → H → Bool) (hexes : List H) (p : P) :
    ((List.range hexes.length).filter (withinAt w hexes p)).length
      = (hexes.filter (w p)).length := by
  induction hexes with
  | nil => simp [withinAt]
  | cons h t ih =>
    rw [List.length_cons, List.range_succ_eq_map, List.filter_cons]
    have h0 : withinAt w (h :: t) p 0 = w p h := by
      simp [withinAt]
    have hsucc : ∀ j : Nat, withinAt w (h :: t) p (Nat.succ j) = withinAt w t p j := by
      intro j
      simp [withinAt]
    rw [List.filter_map]
    have hcomp : ((withinAt w (h :: t) p) ∘ Nat.succ) = withinAt w t p := by
      funext j
      exact hsucc j
    rw [hcomp]
    by_cases hw : w p h = true
    · rw [h0]
      rw [if_pos hw, List.length_cons, List.length_map, ih,
        List.filter_cons_of_pos (by simp [hw]), List.length_cons]
    · rw [h0]
      rw [if_neg hw, List.length_map, ih, List.filter_cons_of_neg (by simp [hw])]

theorem sum_length_filter_of_at_most_one {P H : Type} (w : P → H → Bool) (hexes : List H)
    (pts : List P) (hdisj : ∀ p ∈ pts, (hexes.filter (w p)).length ≤ 1) :
    (pts.map (fun p => (hexes.filter (w p)).length)).sum
      = (pts.filter (fun p => hexes.any (w p))).length := by
  induction pts with
  | nil => rfl
  | cons p rest ih =>
    have hrest := ih (fun x hx => hdisj x (List.mem_cons_of_mem p hx))
    have hp := hdisj p (List.mem_cons_self p rest)
    rw [List.map_cons, List.sum_cons, hrest]
    by_cases hz : (hexes.filter (w p)).length = 0
    · have hany : hexes.any (w p) = false := by
        rw [Bool.eq_false_iff]
        intro hca
        obtain ⟨x, hx, hwx⟩ := List.any_eq_true.mp hca
        have : x ∈ hexes.filter (w p) := List.mem_filter.mpr ⟨hx, hwx⟩
        rw [List.length_eq_zero.mp hz] at this
        exact List.not_mem_nil x this
      rw [hz, List.filter_cons_of_neg (by simp [hany])]
      omega
    · have hone : (hexes.filter (w p)).length = 1 := by omega
      have hex : ∃ x, x ∈ hexes.filter (w p) := by
        rcases List.length_pos.mp (by omega : 0 < (hexes.filter (w p)).length) with h
        exact List.exists_mem_of_ne_nil _ h
      obtain ⟨x, hx⟩ := hex
      have hany : hexes.any (w p) = true :=
        List.any_eq_true.mpr ⟨x, (List.mem_filter.mp hx).1, (List.mem_filter.mp hx).2⟩
      rw [hone, List.filter_cons_of_pos (by simp [hany]), List.length_cons]
      omega

/-! ## Claim C7: normalization is pure, deterministic, and idempotent -/

/-- C7: country-name normalization (unidecode transliteration followed by
deletion of spaces, periods, and apostrophes) is a pure deterministic
function — it is modelled as a Lean function of its inputs alone — and it is
idempotent: applying it twice gives the same result as applying it once, for
every input string and every ASCII-producing transliteration table. -/
theorem country_name_clean_idempotent (table : Char → List Char) (h : asciiTable table)
    (s : List Char) :
    country_name_clean table (country_name_clean table s) = country_name_clean table s := by
  have hchar : ∀ d ∈ country_name_clean table s,
      d.toNat < 128 ∧ d ≠ ' ' ∧ d ≠ '.' ∧ d ≠ apostropheChar := by
    intro d hd
    rw [country_name_clean] at hd
    obtain ⟨hd1, hap⟩ := mem_removeAllChar.mp hd
    obtain ⟨hd2, hdot⟩ := mem_removeAllChar.mp hd1
    obtain ⟨hd3, hsp⟩ := mem_removeAllChar.mp hd2
    exact ⟨mem_unidecodeStr_ascii table h s d hd3, hsp, hdot, hap⟩
  rw [show country_name_clean table (country_name_clean table s)
      = removeAllChar (removeAllChar (removeAllChar
          (unidecodeStr table (country_name_clean table s)) ' ') '.') apostropheChar from rfl]
  rw [unidecodeStr_ascii_fix table _ (fun c hc => (hchar c hc).1)]
  rw [removeAllChar_eq_self (fun d hd => (hchar d hd).2.1)]
  rw [removeAllChar_eq_self (fun d hd => (hchar d hd).2.2.1)]
  rw [removeAllChar_eq_self (fun d hd => (hchar d hd).2.2.2)]

/-- Witness for C7: idempotence at the concrete input `"Cabo Verde."` with the
empty transliteration table (which is trivially ASCII-producing). -/
theorem country_name_clean_idempotent_witness :
    country_name_clean (fun _ => []) (country_name_clean (fun _ => []) (("Cabo Verde.").data))
      = country_name_clean (fun _ => []) (("Cabo Verde.").data) :=
  country_name_clean_idempotent (fun _ => [])
    (fun _ d hd => absurd hd (List.not_mem_nil d)) (("Cabo Verde.").data)

/-! ## Claim C6: recursive config templating -/

/-- C6 (amended): `replace_country` returns a structurally identical document
in which every string leaf is transliterated and has the `Country` token
replaced Python-style (leftmost, non-overlapping), every non-string leaf and
every mapping key is unchanged, and the input is not mutated (the function is
pure); equivalently, it coincides with the structure-preserving leaf map
described by the spec.  The spec's further conclusion that no output leaf can
retain the token does not hold (see the counterexample). -/
theorem replace_country_maps_string_leaves {α : Type} (table : Char → List Char)
    (country : List Char) (node : Node α) :
    replace_country table node country
      = mapStringLeaves (fun s => replaceToken (unidecodeStr table s) country) node :=
  replace_country_eq_aux table country node

/-- Counterexample to C6 as stated: replacing `Country` by the empty string
(which does not contain the token) in the single string leaf
`"CCountryountry"` yields the leaf `"Country"`, which still contains the
token: deleting the inner occurrence splices the surrounding characters into
a fresh occurrence. -/
theorem replace_country_retains_token :
    replace_country (α := Unit) (fun _ => [])
        (.str ('C' :: (countryToken ++ ['o', 'u', 'n', 't', 'r', 'y']))) []
      = .str countryToken
    ∧ containsToken countryToken = true
    ∧ containsToken [] = false :=
  ⟨rfl, rfl, rfl⟩

/-! ## Claim C1: deduplication by country tag -/

/-- C1: for every hexagon collection and target country identifier,
`remove_extra_hexagons` keeps exactly the records whose country tag equals
the target (each kept verbatim, so all properties including the counts are
unchanged, and the non-matching ones are exactly what is discarded); every
survivor's tag equals the target; and — provided no two input records carry
the same physical hexagon with the same country tag, which is what the
intersects-based tagging step produces — no two survivors describe the same
physical hexagon. -/
theorem remove_extra_hexagons_dedup (feats : List Feature) (target : List Char)
    (hnodup : feats.Pairwise (fun a b => a.hexId = b.hexId → a.country ≠ b.country)) :
    (remove_extra_hexagons ⟨feats⟩ target).features = feats.filter (keepFeature target)
    ∧ (∀ f ∈ (remove_extra_hexagons ⟨feats⟩ target).features, f.country = target)
    ∧ (remove_extra_hexagons ⟨feats⟩ target).features.Pairwise
        (fun a b => a.hexId ≠ b.hexId) := by
  have hmain : (remove_extra_hexagons ⟨feats⟩ target).features
      = feats.filter (keepFeature target) := by
    show removalLoop target feats feats = _
    rw [removalLoop_eq_foldl target feats feats, foldl_removeFirst_filter]
  have hcountry : ∀ f ∈ (remove_extra_hexagons ⟨feats⟩ target).features,
      f.country = target := by
    intro f hf
    rw [hmain] at hf
    have := (List.mem_filter.mp hf).2
    simpa [keepFeature] using this
  refine ⟨hmain, hcountry, ?_⟩
  have hpw : (remove_extra_hexagons ⟨feats⟩ target).features.Pairwise
      (fun a b => a.hexId = b.hexId → a.country ≠ b.country) := by
    rw [hmain]
    exact List.Pairwise.sublist (List.filter_sublist feats) hnodup
  refine List.Pairwise.imp_of_mem ?_ hpw
  intro a b ha hb hr heq
  exact absurd ((hcountry a ha).trans (hcountry b hb).symm) (hr heq)

/-- Witness for C1: a three-record collection in which hexagon 1 appears once
tagged `A` and once tagged `B`, and hexagon 2 appears tagged `B`; filtering
for `A` keeps exactly the single `A`-tagged record with its counts intact. -/
theorem remove_extra_hexagons_dedup_witness :
    (remove_extra_hexagons
        ⟨[⟨1, ['A'], 2, 3, []⟩, ⟨1, ['B'], 2, 3, []⟩, ⟨2, ['B'], 0, 1, []⟩]⟩
        ['A']).features
      = [⟨1, ['A'], 2, 3, []⟩] :=
  ((remove_extra_hexagons_dedup
      [⟨1, ['A'], 2, 3, []⟩, ⟨1, ['B'], 2, 3, []⟩, ⟨2, ['B'], 0, 1, []⟩]
      ['A'] (by decide)).1).trans (by decide)

/-! ## Claim C4: spatial-join counting -/

/-- C4: provided each point lies within at most one hexagon (hexagons
tessellate, so no point is counted in more than one hexagon), the sum of the
`theo_turbines` counts over all hexagons equals the number of points lying
strictly within some hexagon — points outside every hexagon contribute
nothing — and a hexagon containing no point carries the count 0 (the
`fillna(0)` default) rather than a missing value. -/
theorem combine_glaes_spider_count_spec {P H : Type} (w : P → H → Bool)
    (wind pv : List P) (hexes : List H)
    (hdisj : ∀ p ∈ wind, (hexes.filter (w p)).length ≤ 1) :
    ((combine_glaes_spider w wind pv hexes).map (fun t => t.2.1)).sum
        = (wind.filter (fun p => hexes.any (w p))).length
    ∧ (∀ t ∈ combine_glaes_spider w wind pv hexes,
        (∀ p ∈ wind, w p t.1 = false) → t.2.1 = 0) := by
  constructor
  · have h1 : (combine_glaes_spider w wind pv hexes).map (fun t => t.2.1)
        = (List.range hexes.length).map
            (fun i => group_size (sjoin_rows w wind hexes) i) := by
      rw [combine_glaes_spider, List.map_map]
      have hfun : ((fun t : H × Nat × Nat => t.2.1) ∘ (fun e : Nat × H =>
          (e.2, group_size (sjoin_rows w wind hexes) e.1,
            group_size (sjoin_rows w pv hexes) e.1)))
          = (fun i => group_size (sjoin_rows w wind hexes) i) ∘ Prod.fst := by
        funext e
        rfl
      rw [hfun, ← List.map_map, List.enum_map_fst]
    rw [h1,
      List.map_congr_left (fun i _ => group_size_sjoin_rows w wind hexes i),
      sum_counts_swap wind (List.range hexes.length)
        (fun p i => withinAt w hexes p i),
      List.map_congr_left (fun p _ => length_filter_withinAt w hexes p),
      sum_length_filter_of_at_most_one w hexes wind hdisj]
  · intro t ht hnone
    rw [combine_glaes_spider] at ht
    obtain ⟨e, he, rfl⟩ := List.mem_map.mp ht
    have hget : hexes[e.1]? = some e.2 := List.mem_enum_iff_getElem?.mp he
    show group_size (sjoin_rows w wind hexes) e.1 = 0
    rw [group_size_sjoin_rows]
    have hall : ∀ p ∈ wind, withinAt w hexes p e.1 = false := by
      intro p hp
      rw [withinAt, hget]
      exact hnone p hp
    rw [List.filter_eq_nil_iff.mpr (fun p hp => by simp [hall p hp]), List.length_nil]

/-- Witness for C4: four points `[1, 2, 2, 5]` and three hexagons
`[1, 2, 3]` under the containment test `p == h`; three points land in some
hexagon and the counts sum to 3. -/
theorem combine_glaes_spider_count_witness :
    (((combine_glaes_spider (fun p h : Nat => p == h) [1, 2, 2, 5] []
        [1, 2, 3]).map (fun t => t.2.1)).sum = 3) :=
  ((combine_glaes_spider_count_spec (fun p h : Nat => p == h) [1, 2, 2, 5] []
      [1, 2, 3] (by decide)).1).trans (by decide)

/-! ## Claim C5: the empty-hexagon path -/

/-- C5 (the code deviates from the claim): with an empty hexagon set,
`update_hexagons` itself does print the diagnostic and skip the write — but
the surrounding `__main__` pipeline then re-reads the never-written save path
unconditionally, so when no stale file pre-exists the run raises an unhandled
file-not-found fault instead of skipping the country gracefully: processing
does crash. -/
theorem pipeline_empty_hexagons_raises :
    ∀ (assignCountry : List Feature → List Feature) (target : List Char)
      (preOut : Option HexData),
      pipeline_after_combine assignCountry target [] none preOut
          = .error .fileNotFound
      ∧ update_hexagons (.gdf []) = ⟨none, true⟩ :=
  fun _ _ _ => ⟨rfl, rfl⟩

/-! ## Claim C9: dict arguments are always persisted -/

/-- C9: `update_hexagons` writes unconditionally whenever its argument is a
plain dict — in particular for a dict with an empty feature list — and emits
no diagnostic for it; the diagnostic-and-skip branch fires exactly on an
empty GeoDataFrame; and the deduplicated collection returned by
`remove_extra_hexagons`, being a dict, is therefore always persisted. -/
theorem update_hexagons_dict_always_written :
    (∀ d : HexJson, update_hexagons (.dict d) = ⟨some (.dict d), false⟩)
    ∧ update_hexagons (.dict ⟨[]⟩) = ⟨some (.dict ⟨[]⟩), false⟩
    ∧ (∀ x : HexData, (update_hexagons x).diagnostic = true →
        x = .gdf [] ∧ (update_hexagons x).written = none)
    ∧ (∀ (hj : HexJson) (t : List Char),
        update_hexagons (.dict (remove_extra_hexagons hj t))
          = ⟨some (.dict (remove_extra_hexagons hj t)), false⟩) := by
  refine ⟨fun d => rfl, rfl, ?_, fun hj t => rfl⟩
  intro x hx
  match x with
  | .dict d => exact absurd hx (by simp [update_hexagons])
  | .gdf rows =>
    match rows with
    | [] => exact ⟨rfl, rfl⟩
    | r :: rest =>
      exact absurd hx (by simp [update_hexagons])

/-- Witness for C9: the diagnostic fired on the concrete input `.gdf []`, and
indeed nothing was written for it, while the empty dict was written. -/
theorem update_hexagons_dict_always_written_witness :
    update_hexagons (.dict ⟨[]⟩) = ⟨some (.dict ⟨[]⟩), false⟩
    ∧ ((.gdf [] : HexData) = .gdf []
        ∧ (update_hexagons (.gdf [])).written = none) :=
  ⟨update_hexagons_dict_always_written.2.1,
   update_hexagons_dict_always_written.2.2.1 (.gdf []) rfl⟩

/-! ## Claims C2, C8, C10: the EPSG selector -/

/-- Counterexample to C2 as stated: at latitude 10, longitude 10 the formula
yields 32632 (zone 32, the band containing longitude 6-12, northern series),
not the claimed 32631. -/
theorem EPSG_at_10_10_ne_claimed :
    EPSG_formula 10 10 = 32632 ∧ EPSG_formula 10 10 ≠ 32631 := by
  constructor
  · norm_num [EPSG_formula, pyRound]
  · norm_num [EPSG_formula, pyRound]

/-- C2 (amended): the selector is deterministic — equal inputs give equal
codes — and at latitude 10, longitude 10 it returns 32632 (not 32631 as
claimed; zone 32 is the band containing longitude 6-12 and its northern EPSG
code is 32632). -/
theorem EPSG_deterministic_and_value_at_10_10 :
    (∀ lat1 lon1 lat2 lon2 : ℚ, lat1 = lat2 → lon1 = lon2 →
      EPSG_formula lat1 lon1 = EPSG_formula lat2 lon2)
    ∧ EPSG_formula 10 10 = 32632 := by
  constructor
  · intro lat1 lon1 lat2 lon2 h1 h2
    rw [h1, h2]
  · norm_num [EPSG_formula, pyRound]

/-- Witness for C2 (amended): determinism applied at the concrete repeated
input (10, 10), together with the concrete value. -/
theorem EPSG_deterministic_witness :
    EPSG_formula 10 10 = EPSG_formula 10 10 ∧ EPSG_formula 10 10 = 32632 :=
  ⟨EPSG_deterministic_and_value_at_10_10.1 10 10 10 10 rfl rfl,
   EPSG_deterministic_and_value_at_10_10.2⟩

/-- Counterexample to C8 as stated: for the out-of-range input latitude 100,
longitude 200 the formula raises nothing and returns the code 32564 — there
is no input validation in either script. -/
theorem EPSG_out_of_range_returns_code : EPSG_formula 100 200 = 32564 := by
  norm_num [EPSG_formula, pyRound]

/-- C8 (amended): the selector performs no range validation: it is a total
function returning an integer for every input; on the out-of-range input
(100, 200) it silently returns 32564, which is not a meaningful UTM EPSG
code (it would encode zone 64, outside 1..60 in the 325xx series), while the
in-range input (10, 10) yields the meaningful code 32632. -/
theorem EPSG_no_range_validation :
    EPSG_formula 100 200 = 32564
    ∧ validUTMcode (EPSG_formula 100 200) = false
    ∧ validUTMcode (EPSG_formula 10 10) = true := by
  have h1 : EPSG_formula 100 200 = 32564 := by norm_num [EPSG_formula, pyRound]
  have h2 : EPSG_formula 10 10 = 32632 := by norm_num [EPSG_formula, pyRound]
  refine ⟨h1, ?_, ?_⟩
  · rw [h1]
    decide
  · rw [h2]
    decide

/-- C10: at the in-range input latitude 0, longitude -180, both rounding
terms hit an exact half and round-half-to-even sends both to 0 — the equator
is assigned the southern series and the longitude term encodes zone number
0 — so the formula returns 32700, which is not a valid UTM EPSG code (valid
zones are 1 through 60). -/
theorem EPSG_equator_dateline_value :
    EPSG_formula 0 (-180) = 32700
    ∧ pyRound ((45 + (0 : ℚ)) / 90) = 0
    ∧ pyRound ((183 + (-180 : ℚ)) / 6) = 0
    ∧ validUTMcode 32700 = false := by
  refine ⟨?_, ?_, ?_, by decide⟩
  · norm_num [EPSG_formula, pyRound]
  · norm_num [pyRound]
  · norm_num [pyRound]

/-! ## Claim C3: the exclusion-engine call order -/

theorem calculating_exclusions_filtered (country : List Char) :
    (calculating_exclusions_calls country).filter isExclusionOrPlacement
      = [.excludeVectorType (country ++ ("_oceans.geojson").data) 250,
         .excludeRasterType (country ++ ("_CLC.tif").data) 90,
         .excludeRasterType (country ++ ("_CLC.tif").data) 50,
         .excludeRasterType (country ++ ("_CLC.tif").data) 80,
         .distributeItems .wind,
         .excludeRasterType (country ++ ("_CLC.tif").data) 40,
         .distributeItems .pv] := rfl

/-- Counterexample to C3 as stated: for the country `Kenya`,
`calculating_exclusions` issues seven exclusion/placement calls, not the
claimed eight — it never requests the protected-area exclusion — so its call
sequence differs from the claimed fixed order. -/
theorem calculating_exclusions_order_ne_claimed :
    (calculating_exclusions_calls (("Kenya").data)).filter isExclusionOrPlacement
      ≠ claimedCallOrder (("Kenya").data) := by
  intro h
  rw [calculating_exclusions_filtered] at h
  have hlen := congrArg List.length h
  simp [claimedCallOrder] at hlen

/-- C3 (amended): for every country, the `workflow.py` driver issues its
exclusion and placement calls in exactly the claimed order (coastal buffer,
protected areas, wetland 90, built-up 50, water 80, turbine placement,
agriculture 40, PV placement), while the `calculating_exclusions` driver of
`prep_before_spider.py` issues exactly the same sequence minus the
protected-area exclusion; in both, turbine placement is requested before the
agriculture exclusion and PV placement after it. -/
theorem exclusion_call_order_amended (country : List Char) :
    (workflow_calls country).filter isExclusionOrPlacement = claimedCallOrder country
    ∧ (calculating_exclusions_calls country).filter isExclusionOrPlacement
        = (claimedCallOrder country).eraseIdx 1 :=
  ⟨rfl, rfl⟩
